import Mathlib

/-!
Shallow embedding of the step-sequencer engine in `src/App.tsx`
(l0rdcafe/web-sequencer): grid-step advance, per-track pattern toggling,
the four track synthesizers (Sweep, Pulse, Noise, Sample), the scheduler
tick, and the range-input parameter mutation surface.

Times and parameter values are rationals (the source uses JS numbers on
exact decimal inputs); audio-graph calls are recorded as event traces.
-/

namespace WebSequencer

/-- The `Track` enum (App.tsx lines 4-9). -/
inductive Track
  | sweep
  | pulse
  | noise
  | sample
deriving DecidableEq, Repr

/-- Constant `BEATS_PER_BAR = 16` (App.tsx line 11). -/
def BEATS_PER_BAR : ℕ := 16

/-- One scheduler step advance: `(currentStep + 1) % BEATS_PER_BAR`
(App.tsx line 421). -/
def nextStepOf (currentStep : ℕ) : ℕ :=
  (currentStep + 1) % BEATS_PER_BAR

/-- The grid position after `k` ticks starting from `p0`, iterating the
step advance of App.tsx line 421. -/
def stepAfter (p0 : ℕ) : ℕ → ℕ
  | 0 => p0
  | k + 1 => nextStepOf (stepAfter p0 k)

/-- Interface `SweepSequence` (App.tsx lines 16-20). -/
structure SweepSequence where
  attack : ℚ
  release : ℚ
  steps : List Bool
deriving DecidableEq, Repr

/-- Interface `PulseSequence` (App.tsx lines 22-26). -/
structure PulseSequence where
  frequency : ℚ
  lfo : ℚ
  steps : List Bool
deriving DecidableEq, Repr

/-- Interface `NoiseSequence` (App.tsx lines 28-32). -/
structure NoiseSequence where
  duration : ℚ
  band : ℚ
  steps : List Bool
deriving DecidableEq, Repr

/-- Interface `SampleSequence` (App.tsx lines 34-37). -/
structure SampleSequence where
  rate : ℚ
  steps : List Bool
deriving DecidableEq, Repr

/-- The fresh steps array built by `toggleSequenceStep` (App.tsx lines
76-80): `[...steps.slice(0, i), !steps[i], ...steps.slice(i + 1)]`.
Reading `steps[i]` out of range yields JS `undefined`, and `!undefined`
is `true`, which `getD i false` followed by `!` reproduces. -/
def toggleSteps (steps : List Bool) (i : ℕ) : List Bool :=
  steps.take i ++ [!(steps.getD i false)] ++ steps.drop (i + 1)

/-- Function `toggleSequenceStep` applied to a `SweepSequence` (App.tsx lines
71-83): the `steps` field is replaced by the toggled copy and the rest
of the record (`...params`) is spread through unchanged. -/
def toggleSequenceStepSweep (i : ℕ) (prevState : SweepSequence) : SweepSequence :=
  { attack := prevState.attack
    release := prevState.release
    steps := toggleSteps prevState.steps i }

/-- Function `toggleSequenceStep` applied to a `PulseSequence` (App.tsx lines 71-83). -/
def toggleSequenceStepPulse (i : ℕ) (prevState : PulseSequence) : PulseSequence :=
  { frequency := prevState.frequency
    lfo := prevState.lfo
    steps := toggleSteps prevState.steps i }

/-- Function `toggleSequenceStep` applied to a `NoiseSequence` (App.tsx lines 71-83). -/
def toggleSequenceStepNoise (i : ℕ) (prevState : NoiseSequence) : NoiseSequence :=
  { duration := prevState.duration
    band := prevState.band
    steps := toggleSteps prevState.steps i }

/-- Function `toggleSequenceStep` applied to a `SampleSequence` (App.tsx lines 71-83). -/
def toggleSequenceStepSample (i : ℕ) (prevState : SampleSequence) : SampleSequence :=
  { rate := prevState.rate
    steps := toggleSteps prevState.steps i }

/- Helper lemmas about `toggleSteps`. -/

theorem toggleSteps_cons_succ (a : Bool) (as : List Bool) (i : ℕ) :
    toggleSteps (a :: as) (i + 1) = a :: toggleSteps as i := by
  simp [toggleSteps]

theorem toggleSteps_cons_zero (a : Bool) (as : List Bool) :
    toggleSteps (a :: as) 0 = (!a) :: as := by
  simp [toggleSteps]

theorem toggleSteps_involutive (p : List Bool) (i : ℕ) (hi : i < p.length) :
    toggleSteps (toggleSteps p i) i = p := by
  induction p generalizing i with
  | nil => simp at hi
  | cons a as ih =>
    cases i with
    | zero => simp [toggleSteps_cons_zero]
    | succ i =>
      rw [toggleSteps_cons_succ, toggleSteps_cons_succ, ih]
      exact Nat.lt_of_succ_lt_succ hi

theorem toggleSteps_getD_ne (p : List Bool) (i j : ℕ) (hi : i < p.length)
    (hij : j ≠ i) : (toggleSteps p i).getD j false = p.getD j false := by
  induction p generalizing i j with
  | nil => simp at hi
  | cons a as ih =>
    cases i with
    | zero =>
      rw [toggleSteps_cons_zero]
      cases j with
      | zero => exact absurd rfl hij
      | succ j => simp [List.getD_cons_succ]
    | succ i =>
      rw [toggleSteps_cons_succ]
      cases j with
      | zero => simp [List.getD_cons_zero]
      | succ j =>
        simp only [List.getD_cons_succ]
        exact ih i j (Nat.lt_of_succ_lt_succ hi) (fun h => hij (by rw [h]))

theorem toggleSteps_length (p : List Bool) (i : ℕ) (hi : i < p.length) :
    (toggleSteps p i).length = p.length := by
  simp only [toggleSteps, List.length_append, List.length_take, List.length_drop,
    List.length_cons, List.length_nil]
  omega

/- Helper lemma for the grid position. -/

theorem stepAfter_mod (p0 : ℕ) (hp : p0 < 16) (k : ℕ) :
    stepAfter p0 k = (p0 + k) % 16 := by
  induction k with
  | zero => simp [stepAfter, Nat.mod_eq_of_lt hp]
  | succ k ih =>
    show nextStepOf (stepAfter p0 k) = (p0 + (k + 1)) % 16
    rw [ih, nextStepOf, BEATS_PER_BAR, Nat.mod_add_mod, Nat.add_assoc]

/-- One call made against the audio output graph during a firing; a
firing is embedded as the list of these calls in source order. Times
are audio-clock seconds. -/
inductive AudioEvent
  | oscSetWave
  | oscSetFrequency (f : ℚ)
  | gainCancelScheduled (t : ℚ)
  | gainSetValue (v t : ℚ)
  | gainLinearRamp (v t : ℚ)
  | gainSetConstant (v : ℚ)
  | lfoSetFrequency (f : ℚ)
  | lfoStart
  | lfoStop (t : ℚ)
  | filterSetFrequency (f : ℚ)
  | sampleSetRate (r : ℚ)
  | connectChain (tapped : Bool)
  | oscStart (t : ℚ)
  | oscStop (t : ℚ)
  | noiseStart (t : ℚ)
  | sampleStart (t : ℚ)
deriving DecidableEq, Repr

/-- Constant `sweepLength = 2` (App.tsx line 105). -/
def sweepLength : ℚ := 2

/-- Function `playSweep` (App.tsx lines 104-128): custom wave at 380 Hz, gain
envelope `setValueAtTime(0, time)`, `linearRampToValueAtTime(1, time +
attack)`, `linearRampToValueAtTime(0, time + sweepLength - release)`,
analyzer tap iff Sweep is selected, oscillator started at `time` and
stopped at `time + sweepLength`. -/
def playSweep (selectedTrack : Track) (attack release time : ℚ) : List AudioEvent :=
  [ .oscSetWave,
    .oscSetFrequency 380,
    .gainCancelScheduled time,
    .gainSetValue 0 time,
    .gainLinearRamp 1 (time + attack),
    .gainLinearRamp 0 (time + sweepLength - release),
    .connectChain (selectedTrack == Track.sweep),
    .oscStart time,
    .oscStop (time + sweepLength) ]

/-- Constant `pulseTime = 1` (App.tsx line 131). -/
def pulseTime : ℚ := 1

/-- Function `playPulse` (App.tsx lines 130-155): sine at `frequency`, unit-gain
amp, square LFO at `lfo` into the amp gain, analyzer tap iff Pulse is
selected; `lfo.start()` runs with no time argument and the LFO is never
stopped; the main oscillator starts at `time`, stops at `time +
pulseTime`. -/
def playPulse (selectedTrack : Track) (frequency lfo time : ℚ) : List AudioEvent :=
  [ .oscSetFrequency frequency,
    .gainSetConstant 1,
    .lfoSetFrequency lfo,
    .connectChain (selectedTrack == Track.pulse),
    .lfoStart,
    .oscStart time,
    .oscStop (time + pulseTime) ]

/-- Call `audioContext.createBuffer(1, length, sampleRate)` for a requested
(possibly fractional) length. External Web Audio API behavior: the
length argument is an integer count obtained by truncation, and a
`NotSupportedError` is thrown when that count is not strictly
positive. -/
def createBufferLen (bufferSize : ℚ) : Except String ℕ :=
  if ⌊bufferSize⌋ ≤ 0 then .error "NotSupportedError" else .ok ⌊bufferSize⌋.toNat

/-- Function `playNoise` (App.tsx lines 157-187): a mono buffer of `sampleRate *
duration` samples, each `Math.random() * 2 - 1` (the random draw `rand
i` lies in `[0, 1)`), routed through a bandpass filter at `band`,
analyzer tap iff Noise is selected, started at `time`. Returns the
generated channel data together with the graph calls, or the thrown
error. -/
def playNoise (selectedTrack : Track) (sampleRate : ℕ) (duration band : ℚ)
    (rand : ℕ → ℚ) (time : ℚ) : Except String (List ℚ × List AudioEvent) :=
  let bufferSize : ℚ := (sampleRate : ℚ) * duration
  match createBufferLen bufferSize with
  | .error e => .error e
  | .ok n =>
      let data := (List.range n).map (fun i => rand i * 2 - 1)
      .ok (data,
        [ .filterSetFrequency band,
          .connectChain (selectedTrack == Track.noise),
          .noiseStart time ])

/-- Function `playSample` (App.tsx lines 190-206): buffer source at playback
rate `rate`, analyzer tap iff Sample is selected, started at `time`. -/
def playSample (selectedTrack : Track) (rate time : ℚ) : List AudioEvent :=
  [ .sampleSetRate rate,
    .connectChain (selectedTrack == Track.sample),
    .sampleStart time ]

/-- Function `playSound` (App.tsx lines 208-233): dispatch on the track; for
Sample, `if (audioBuffer == null) return;` makes a missing buffer a
no-op before `playSample` is reached. -/
def playSound (selectedTrack : Track) (sweepSequence : SweepSequence)
    (pulseSequence : PulseSequence) (noiseSequence : NoiseSequence)
    (sampleSequence : SampleSequence) (sampleRate : ℕ) (rand : ℕ → ℚ)
    (track : Track) (time : ℚ) (audioBuffer : Option (List ℚ)) :
    Except String (List AudioEvent) :=
  if track = Track.sweep then
    .ok (playSweep selectedTrack sweepSequence.attack sweepSequence.release time)
  else if track = Track.pulse then
    .ok (playPulse selectedTrack pulseSequence.frequency pulseSequence.lfo time)
  else if track = Track.noise then
    (playNoise selectedTrack sampleRate noiseSequence.duration noiseSequence.band
      rand time).map Prod.snd
  else
    match audioBuffer with
    | none => .ok []
    | some _ => .ok (playSample selectedTrack sampleSequence.rate time)

/-- The sequencer state the scheduler tick reads and writes (App.tsx
lines 40-62). -/
structure SequencerState where
  currentStep : ℕ
  tempo : ℚ
  isPlaying : Bool
  selectedTrack : Track
  sweepSequence : SweepSequence
  pulseSequence : PulseSequence
  noiseSequence : NoiseSequence
  sampleSequence : SampleSequence
deriving DecidableEq, Repr

/-- A scheduler-level action during one tick. -/
inductive SchedEvent
  | resumeAttempt
  | fire (track : Track)
deriving DecidableEq, Repr

/-- Result of one tick: the state afterwards, the trace of scheduler
actions in source order, and whether the interval timer was cleared. -/
structure TickResult where
  state : SequencerState
  events : List SchedEvent
  timerCleared : Bool
deriving DecidableEq, Repr

/-- One scheduler tick (App.tsx lines 409-442). When not playing the
timer is cleared and nothing fires. When the context is suspended,
`audioContext.resume()` is called before any firing; its returned
promise is discarded, so `resumeSucceeds` is never consulted. Then
`nextStep = (currentStep + 1) % BEATS_PER_BAR` is stored and each track
whose pattern gate at `nextStep` is true is fired. Reading a gate out
of range yields JS `undefined`, which is falsy; `getD _ false` matches
this. -/
def schedulerTick (ctxSuspended resumeSucceeds : Bool) (st : SequencerState) :
    TickResult :=
  if st.isPlaying = false then
    { state := st, events := [], timerCleared := true }
  else
    let resumeEvents : List SchedEvent :=
      if ctxSuspended then [.resumeAttempt] else []
    let nextStep := nextStepOf st.currentStep
    let fires : List SchedEvent :=
      (if st.sweepSequence.steps.getD nextStep false then [.fire Track.sweep] else []) ++
      (if st.pulseSequence.steps.getD nextStep false then [.fire Track.pulse] else []) ++
      (if st.noiseSequence.steps.getD nextStep false then [.fire Track.noise] else []) ++
      (if st.sampleSequence.steps.getD nextStep false then [.fire Track.sample] else [])
    { state := { st with currentStep := nextStep }
      events := resumeEvents ++ fires
      timerCleared := false }

/-- The sequencer state after `k` consecutive ticks under a fixed
context condition. -/
def schedulerTicks (ctxSuspended resumeSucceeds : Bool) (st : SequencerState) :
    ℕ → SequencerState
  | 0 => st
  | k + 1 => (schedulerTick ctxSuspended resumeSucceeds
      (schedulerTicks ctxSuspended resumeSucceeds st k)).state

/-- The value an HTML range input holds after any write, as declared by
its `min`/`max` attributes in the JSX: the platform's value
sanitization clamps below-minimum values to `min` and above-maximum
values to `max`. The `onChange` handlers read `e.target.value` from
such an input. -/
def sanitizeRangeInput (mn mx v : ℚ) : ℚ :=
  if v < mn then mn else if mx < v then mx else v

/-- The BPM input's change handler (App.tsx lines 461-474):
`setTempo(Number(e.target.value))` where the input is
`type="range" min="60" max="240"`. -/
def bpmOnChange (v : ℚ) (st : SequencerState) : SequencerState :=
  { st with tempo := sanitizeRangeInput 60 240 v }

/-- The Sweep attack input's change handler (App.tsx lines 239-254):
stores `Number(e.target.value)` from a `type="range" min="0" max="1"`
input into `attack`. -/
def attackOnChange (v : ℚ) (sw : SweepSequence) : SweepSequence :=
  { sw with attack := sanitizeRangeInput 0 1 v }

/-- The Sweep release input's change handler (App.tsx lines 255-270):
range input with `min="0" max="1"`. -/
def releaseOnChange (v : ℚ) (sw : SweepSequence) : SweepSequence :=
  { sw with release := sanitizeRangeInput 0 1 v }

/-- The Pulse hertz input's change handler (App.tsx lines 278-293):
range input with `min="660" max="1320"`. -/
def frequencyOnChange (v : ℚ) (pu : PulseSequence) : PulseSequence :=
  { pu with frequency := sanitizeRangeInput 660 1320 v }

/-- The Pulse LFO input's change handler (App.tsx lines 294-309):
range input with `min="20" max="40"`. -/
def lfoOnChange (v : ℚ) (pu : PulseSequence) : PulseSequence :=
  { pu with lfo := sanitizeRangeInput 20 40 v }

/-- The Noise duration input's change handler (App.tsx lines 317-332):
range input with `min="0" max="2"`. -/
def durationOnChange (v : ℚ) (no : NoiseSequence) : NoiseSequence :=
  { no with duration := sanitizeRangeInput 0 2 v }

/-- The Noise bandpass input's change handler (App.tsx lines 333-348):
range input with `min="400" max="1200"`. -/
def bandOnChange (v : ℚ) (no : NoiseSequence) : NoiseSequence :=
  { no with band := sanitizeRangeInput 400 1200 v }

/-- Predicate picking out an `lfoStop` call in a firing's trace. -/
def isLfoStop : AudioEvent → Bool
  | .lfoStop _ => true
  | _ => false

/-- A concrete playing state whose Sweep pattern gates step 1 and whose
other patterns are all false, with the default parameter values of
App.tsx lines 44-62. -/
def suspendedTickState : SequencerState :=
  { currentStep := 0
    tempo := 120
    isPlaying := true
    selectedTrack := Track.sweep
    sweepSequence :=
      { attack := 1/5
        release := 1/2
        steps := [false, true, false, false, false, false, false, false,
                  false, false, false, false, false, false, false, false] }
    pulseSequence :=
      { frequency := 880, lfo := 30, steps := List.replicate 16 false }
    noiseSequence :=
      { duration := 1, band := 1000, steps := List.replicate 16 false }
    sampleSequence :=
      { rate := 1, steps := List.replicate 16 false } }

/-- A concrete playing state whose Sample pattern gates step 1 and whose
other patterns are all false. -/
def sampleGateState : SequencerState :=
  { currentStep := 0
    tempo := 120
    isPlaying := true
    selectedTrack := Track.sample
    sweepSequence :=
      { attack := 1/5, release := 1/2, steps := List.replicate 16 false }
    pulseSequence :=
      { frequency := 880, lfo := 30, steps := List.replicate 16 false }
    noiseSequence :=
      { duration := 1, band := 1000, steps := List.replicate 16 false }
    sampleSequence :=
      { rate := 1
        steps := [false, true, false, false, false, false, false, false,
                  false, false, false, false, false, false, false, false] } }

/- Helper lemmas about the scheduler tick. -/

theorem schedulerTick_playing (ctxSuspended resumeSucceeds : Bool)
    (st : SequencerState) (hplay : st.isPlaying = true) :
    schedulerTick ctxSuspended resumeSucceeds st =
      { state := { st with currentStep := nextStepOf st.currentStep }
        events :=
          (if ctxSuspended then [.resumeAttempt] else []) ++
          ((if st.sweepSequence.steps.getD (nextStepOf st.currentStep) false then
              [.fire Track.sweep] else []) ++
           (if st.pulseSequence.steps.getD (nextStepOf st.currentStep) false then
              [.fire Track.pulse] else []) ++
           (if st.noiseSequence.steps.getD (nextStepOf st.currentStep) false then
              [.fire Track.noise] else []) ++
           (if st.sampleSequence.steps.getD (nextStepOf st.currentStep) false then
              [.fire Track.sample] else []))
        timerCleared := false } := by
  simp [schedulerTick, hplay]

theorem schedulerTicks_invariant (ctxSuspended resumeSucceeds : Bool)
    (st : SequencerState) (hplay : st.isPlaying = true) (k : ℕ) :
    (schedulerTicks ctxSuspended resumeSucceeds st k).isPlaying = true ∧
    (schedulerTicks ctxSuspended resumeSucceeds st k).currentStep =
      stepAfter st.currentStep k ∧
    (schedulerTicks ctxSuspended resumeSucceeds st k).sweepSequence = st.sweepSequence ∧
    (schedulerTicks ctxSuspended resumeSucceeds st k).pulseSequence = st.pulseSequence ∧
    (schedulerTicks ctxSuspended resumeSucceeds st k).noiseSequence = st.noiseSequence ∧
    (schedulerTicks ctxSuspended resumeSucceeds st k).sampleSequence =
      st.sampleSequence := by
  induction k with
  | zero => exact ⟨hplay, rfl, rfl, rfl, rfl, rfl⟩
  | succ k ih =>
    obtain ⟨h1, h2, h3, h4, h5, h6⟩ := ih
    have hstep : schedulerTicks ctxSuspended resumeSucceeds st (k + 1) =
        (schedulerTick ctxSuspended resumeSucceeds
          (schedulerTicks ctxSuspended resumeSucceeds st k)).state := rfl
    rw [hstep, schedulerTick_playing ctxSuspended resumeSucceeds _ h1]
    exact ⟨h1, by rw [h2]; rfl, h3, h4, h5, h6⟩

/-- C1: for every starting grid position `p0` in `[0, 16)` and every
number of ticks `k ≥ 0`, the grid position after `k` scheduler ticks
equals `(p0 + k) mod 16`, and it is always in `[0, 16)`. -/
theorem grid_position_after_ticks (p0 : ℕ) (hp : p0 < 16) (k : ℕ) :
    stepAfter p0 k = (p0 + k) % 16 ∧ stepAfter p0 k < 16 := by
  refine ⟨stepAfter_mod p0 hp k, ?_⟩
  rw [stepAfter_mod p0 hp k]
  exact Nat.mod_lt _ (by norm_num)

/-- Witness for C1 at `p0 = 3`, `k = 21`. -/
theorem grid_position_after_ticks_witness :
    3 < 16 ∧ (stepAfter 3 21 = (3 + 21) % 16 ∧ stepAfter 3 21 < 16) :=
  ⟨by decide, grid_position_after_ticks 3 (by decide) 21⟩

/-- C2: a Sweep firing at trigger time `t` with attack `a` and release
`r` schedules gain 0 at `t`, a linear ramp reaching 1 at `t + a`, a
linear ramp reaching 0 at `t + 2 - r`, and starts the oscillator at `t`
and stops it at `t + 2` regardless of the envelope; in particular for
`a = 0.2`, `r = 0.5`, `t = 0` the gain reaches 1 at `0.2`, reaches 0 at
`1.5`, and the note stops at `2`. -/
theorem sweep_envelope_schedule (selectedTrack : Track) (attack release time : ℚ) :
    AudioEvent.gainSetValue 0 time ∈ playSweep selectedTrack attack release time ∧
    AudioEvent.gainLinearRamp 1 (time + attack) ∈
      playSweep selectedTrack attack release time ∧
    AudioEvent.gainLinearRamp 0 (time + 2 - release) ∈
      playSweep selectedTrack attack release time ∧
    AudioEvent.oscStart time ∈ playSweep selectedTrack attack release time ∧
    AudioEvent.oscStop (time + 2) ∈ playSweep selectedTrack attack release time ∧
    AudioEvent.gainLinearRamp 1 (1/5) ∈ playSweep selectedTrack (1/5) (1/2) 0 ∧
    AudioEvent.gainLinearRamp 0 (3/2) ∈ playSweep selectedTrack (1/5) (1/2) 0 ∧
    AudioEvent.oscStop 2 ∈ playSweep selectedTrack (1/5) (1/2) 0 := by
  refine ⟨?_, ?_, ?_, ?_, ?_, ?_, ?_, ?_⟩ <;>
    simp [playSweep, sweepLength] <;> norm_num

/-- C3: toggling gate `i` of a length-16 pattern twice returns the
pattern to its original value, and toggling `i` never changes any gate
`j ≠ i`. -/
theorem toggle_twice_identity_and_frame (p : List Bool) (i : ℕ)
    (hlen : p.length = 16) (hi : i < 16) :
    toggleSteps (toggleSteps p i) i = p ∧
    ∀ j, j ≠ i → (toggleSteps p i).getD j false = p.getD j false := by
  have hi' : i < p.length := by omega
  exact ⟨toggleSteps_involutive p i hi',
    fun j hj => toggleSteps_getD_ne p i j hi' hj⟩

/-- Witness for C3 on the all-false pattern at `i = 5`. -/
theorem toggle_twice_identity_and_frame_witness :
    ((List.replicate 16 false).length = 16 ∧ 5 < 16) ∧
    (toggleSteps (toggleSteps (List.replicate 16 false) 5) 5 =
        List.replicate 16 false ∧
      ∀ j, j ≠ 5 → (toggleSteps (List.replicate 16 false) 5).getD j false =
        (List.replicate 16 false).getD j false) :=
  ⟨⟨by decide, by decide⟩,
    toggle_twice_identity_and_frame (List.replicate 16 false) 5 (by decide) (by decide)⟩

/-- C4 (code bug): for the Pulse firing with frequency 880, lfoRate 30
at trigger time 0, the main tone starts at 0 and stops at 1, but the
trace contains no `lfoStop` call at any time: the LFO is started and
never released, contradicting the claim that it is released no later
than the main tone's stop. -/
theorem pulse_lfo_never_stopped :
    AudioEvent.oscStart 0 ∈ playPulse Track.pulse 880 30 0 ∧
    AudioEvent.oscStop 1 ∈ playPulse Track.pulse 880 30 0 ∧
    AudioEvent.lfoStart ∈ playPulse Track.pulse 880 30 0 ∧
    (playPulse Track.pulse 880 30 0).filter isLfoStop = [] := by
  refine ⟨?_, ?_, ?_, ?_⟩ <;> simp [playPulse, pulseTime, isLfoStop] <;> norm_num

/-- C5 counterexample: in a playing state with the Sweep gate at the
next step set, a tick with the context suspended and resumption failing
still fires the Sweep track, refuting the claim that such a tick fires
no tracks. -/
theorem suspended_tick_fires_despite_failed_resume :
    SchedEvent.fire Track.sweep ∈ (schedulerTick true false suspendedTickState).events := by
  decide

/-- C5 (amended): on every tick at which the context is suspended, the
scheduler attempts a resume before firing any track (the resume attempt
heads the trace), the tick's entire outcome is independent of whether
resumption succeeds (the promise is discarded), and the condition is
never fatal (the timer is not cleared). -/
theorem suspended_tick_resume_first_fires_regardless
    (resumeSucceeds resumeSucceeds' : Bool) (st : SequencerState)
    (hplay : st.isPlaying = true) :
    (schedulerTick true resumeSucceeds st).events.head? =
      some SchedEvent.resumeAttempt ∧
    schedulerTick true resumeSucceeds st = schedulerTick true resumeSucceeds' st ∧
    (schedulerTick true resumeSucceeds st).timerCleared = false := by
  rw [schedulerTick_playing true resumeSucceeds st hplay,
    schedulerTick_playing true resumeSucceeds' st hplay]
  exact ⟨rfl, rfl, rfl⟩

/-- Witness for the amended C5 at the concrete suspended state. -/
theorem suspended_tick_resume_first_fires_regardless_witness :
    suspendedTickState.isPlaying = true ∧
    ((schedulerTick true false suspendedTickState).events.head? =
        some SchedEvent.resumeAttempt ∧
      schedulerTick true false suspendedTickState =
        schedulerTick true true suspendedTickState ∧
      (schedulerTick true false suspendedTickState).timerCleared = false) :=
  ⟨rfl, suspended_tick_resume_first_fires_regardless false true suspendedTickState rfl⟩

/-- C6: firing the Sample track with no loaded buffer is a no-op (no
graph calls, no error), a tick never mutates the Sample pattern, and in
a playing state with position `< 16` and the Sample gate at `i` set,
after 16 further ticks the position has returned to its old value and
the gate at `i` is still set, so the track fires again on the next pass
of the grid. -/
theorem sample_without_buffer_noop (selectedTrack : Track) (sw : SweepSequence)
    (pu : PulseSequence) (no : NoiseSequence) (sa : SampleSequence)
    (sampleRate : ℕ) (rand : ℕ → ℚ) (time : ℚ)
    (ctxSuspended resumeSucceeds : Bool) (st : SequencerState) (i : ℕ)
    (hplay : st.isPlaying = true) (hstep : st.currentStep < 16)
    (hgate : st.sampleSequence.steps.getD i false = true) :
    playSound selectedTrack sw pu no sa sampleRate rand Track.sample time none =
      Except.ok [] ∧
    (schedulerTick ctxSuspended resumeSucceeds st).state.sampleSequence =
      st.sampleSequence ∧
    (schedulerTicks ctxSuspended resumeSucceeds st 16).currentStep =
      st.currentStep ∧
    (schedulerTicks ctxSuspended resumeSucceeds st 16).sampleSequence.steps.getD
      i false = true := by
  obtain ⟨-, h2, -, -, -, h6⟩ :=
    schedulerTicks_invariant ctxSuspended resumeSucceeds st hplay 16
  refine ⟨rfl, ?_, ?_, ?_⟩
  · rw [schedulerTick_playing ctxSuspended resumeSucceeds st hplay]
  · rw [h2, stepAfter_mod st.currentStep hstep 16, Nat.add_mod_right,
      Nat.mod_eq_of_lt hstep]
  · rw [h6, hgate]

/-- Witness for C6 at the concrete Sample-gated state. -/
theorem sample_without_buffer_noop_witness :
    (sampleGateState.isPlaying = true ∧ sampleGateState.currentStep < 16 ∧
      sampleGateState.sampleSequence.steps.getD 1 false = true) ∧
    (playSound Track.sample
        { attack := 1/5, release := 1/2, steps := List.replicate 16 false }
        { frequency := 880, lfo := 30, steps := List.replicate 16 false }
        { duration := 1, band := 1000, steps := List.replicate 16 false }
        { rate := 1, steps := List.replicate 16 false }
        44100 (fun _ => 0) Track.sample 0 none = Except.ok [] ∧
      (schedulerTick false true sampleGateState).state.sampleSequence =
        sampleGateState.sampleSequence ∧
      (schedulerTicks false true sampleGateState 16).currentStep =
        sampleGateState.currentStep ∧
      (schedulerTicks false true sampleGateState 16).sampleSequence.steps.getD
        1 false = true) :=
  ⟨⟨rfl, by decide, by decide⟩,
    sample_without_buffer_noop Track.sample
      { attack := 1/5, release := 1/2, steps := List.replicate 16 false }
      { frequency := 880, lfo := 30, steps := List.replicate 16 false }
      { duration := 1, band := 1000, steps := List.replicate 16 false }
      { rate := 1, steps := List.replicate 16 false }
      44100 (fun _ => 0) 0 false true sampleGateState 1 rfl (by decide) (by decide)⟩

/-- C7: when `sampleRate * duration` is a positive integer `n` and every
random draw lies in `[0, 1)`, a Noise firing succeeds and generates a
mono buffer of exactly `n` samples, each in `[-1, 1]`; in particular
`n = 44100` for duration 1 at sample rate 44100. -/
theorem noise_buffer_length_and_range (selectedTrack : Track) (sampleRate : ℕ)
    (duration band : ℚ) (rand : ℕ → ℚ) (time : ℚ) (n : ℕ)
    (hn : (sampleRate : ℚ) * duration = (n : ℚ)) (hpos : 0 < n)
    (hrand : ∀ i, 0 ≤ rand i ∧ rand i < 1) :
    ∃ data events,
      playNoise selectedTrack sampleRate duration band rand time =
        Except.ok (data, events) ∧
      data.length = n ∧ ∀ x ∈ data, -1 ≤ x ∧ x ≤ 1 := by
  have hfloor : ⌊(sampleRate : ℚ) * duration⌋ = (n : ℤ) := by
    rw [hn]; exact Int.floor_natCast n
  refine ⟨(List.range n).map (fun i => rand i * 2 - 1),
    [ .filterSetFrequency band,
      .connectChain (selectedTrack == Track.noise),
      .noiseStart time ], ?_, ?_, ?_⟩
  · have hif : createBufferLen ((sampleRate : ℚ) * duration) = Except.ok n := by
      unfold createBufferLen
      rw [hfloor, if_neg (by omega)]
      simp
    simp only [playNoise]
    rw [hif]
  · simp
  · intro x hx
    simp only [List.mem_map, List.mem_range] at hx
    obtain ⟨i, -, rfl⟩ := hx
    obtain ⟨hr0, hr1⟩ := hrand i
    constructor <;> linarith

/-- Witness for C7 at sample rate 44100, duration 1, constant draws 1/2. -/
theorem noise_buffer_length_and_range_witness :
    ((44100 : ℚ) * 1 = ((44100 : ℕ) : ℚ) ∧ 0 < 44100 ∧
      (∀ i : ℕ, 0 ≤ (fun _ : ℕ => (1 : ℚ)/2) i ∧ (fun _ : ℕ => (1 : ℚ)/2) i < 1)) ∧
    ∃ data events,
      playNoise Track.noise 44100 1 1000 (fun _ : ℕ => (1 : ℚ)/2) 0 =
        Except.ok (data, events) ∧
      data.length = 44100 ∧ ∀ x ∈ data, -1 ≤ x ∧ x ≤ 1 :=
  ⟨⟨by norm_num, by norm_num, fun i => by norm_num⟩,
    noise_buffer_length_and_range Track.noise 44100 1 1000
      (fun _ : ℕ => (1 : ℚ)/2) 0 44100 (by norm_num) (by norm_num)
      (fun i => by norm_num)⟩

/-- C8 (code bug): triggering the Noise synthesizer with duration 0,
which lies inside the declared valid range `[0, 2]`, makes the source
request a zero-length buffer from `createBuffer`, which throws
`NotSupportedError`: the firing faults instead of degrading to
silence. -/
theorem noise_zero_duration_throws :
    playNoise Track.noise 44100 0 1000 (fun _ : ℕ => (0 : ℚ)) 0 =
      Except.error "NotSupportedError" := by
  simp [playNoise, createBufferLen]

/-- C9: every parameter write through the range-input mutation surface
stores a value inside the parameter's declared range: tempo lands in
`[60, 240]`, attack and release in `[0, 1]`, frequency in `[660, 1320]`,
lfo in `[20, 40]`, duration in `[0, 2]`, and band in `[400, 1200]`,
whatever value is written. -/
theorem parameter_writes_stay_in_range (v : ℚ) (st : SequencerState)
    (sw : SweepSequence) (pu : PulseSequence) (no : NoiseSequence) :
    (60 ≤ (bpmOnChange v st).tempo ∧ (bpmOnChange v st).tempo ≤ 240) ∧
    (0 ≤ (attackOnChange v sw).attack ∧ (attackOnChange v sw).attack ≤ 1) ∧
    (0 ≤ (releaseOnChange v sw).release ∧ (releaseOnChange v sw).release ≤ 1) ∧
    (660 ≤ (frequencyOnChange v pu).frequency ∧
      (frequencyOnChange v pu).frequency ≤ 1320) ∧
    (20 ≤ (lfoOnChange v pu).lfo ∧ (lfoOnChange v pu).lfo ≤ 40) ∧
    (0 ≤ (durationOnChange v no).duration ∧ (durationOnChange v no).duration ≤ 2) ∧
    (400 ≤ (bandOnChange v no).band ∧ (bandOnChange v no).band ≤ 1200) := by
  unfold bpmOnChange attackOnChange releaseOnChange frequencyOnChange lfoOnChange
    durationOnChange bandOnChange sanitizeRangeInput
  refine ⟨⟨?_, ?_⟩, ⟨?_, ?_⟩, ⟨?_, ?_⟩, ⟨?_, ?_⟩, ⟨?_, ?_⟩, ⟨?_, ?_⟩, ⟨?_, ?_⟩⟩ <;>
    dsimp <;> split_ifs <;> linarith

/-- C10: toggling the pattern gate at any index leaves every field of
the track sequence other than `steps` unchanged: attack, release,
frequency, lfo, duration, band and rate keep their values. -/
theorem toggle_preserves_track_parameters (i : ℕ) (sw : SweepSequence)
    (pu : PulseSequence) (no : NoiseSequence) (sa : SampleSequence) :
    (toggleSequenceStepSweep i sw).attack = sw.attack ∧
    (toggleSequenceStepSweep i sw).release = sw.release ∧
    (toggleSequenceStepPulse i pu).frequency = pu.frequency ∧
    (toggleSequenceStepPulse i pu).lfo = pu.lfo ∧
    (toggleSequenceStepNoise i no).duration = no.duration ∧
    (toggleSequenceStepNoise i no).band = no.band ∧
    (toggleSequenceStepSample i sa).rate = sa.rate :=
  ⟨rfl, rfl, rfl, rfl, rfl, rfl, rfl⟩

end WebSequencer
